import Mathlib

/-!
Shallow embedding of the request-dispatch layer of the go-marathon client
(`client.go`): the `apiCall` dispatcher, its status classification, and the
`Ping` facade operation.

Modelling choices, mirroring the Go source:
* Go `error` values are embedded as the inductive `GoErr`.  The package
  sentinel errors created with `errors.New` (ErrInvalidEndpoint, ...,
  ErrConflict) are distinct constructors; errors produced by the standard
  library (`json.Marshal`, `json.Unmarshal`, `http.NewRequest`,
  `http.Client.Do`, `ioutil.ReadAll`) are fresh values of their own
  constructors, never equal to a sentinel — exactly as in Go, where the
  sentinels compare by identity and library errors are values of other types.
* Byte slices are embedded as `Bytes := String` (opaque payloads).
* The external world of one `apiCall` invocation (cluster member lookup,
  JSON codec behaviour, request construction, HTTP exchange, body read) is
  a `CallEnv` of oracles; `apiCall` consumes them in exactly the order the
  source does and also returns the list of externally visible events it
  performed, so that absence of an HTTP attempt, or its uniqueness, is a
  statement about the trace.
* `result interface{}` being nil or non-nil is the flag `wantResult`; a
  populated sink is the `some` payload of a successful return.
-/

/-- Byte-slice payloads (request/response bodies), kept opaque. -/
abbrev Bytes := String

/-- Embedding of the Go `error` values reachable in `client.go`.
The first seven constructors are the package sentinels declared with
`errors.New`; the remaining constructors embed errors returned by the
standard library, which in Go are values of distinct types and therefore
never equal to any sentinel. -/
inductive GoErr where
  | errInvalidEndpoint
  | errInvalidResponse
  | errDoesNotExist
  | errMarathonDown
  | errInvalidArgument
  | errTimeoutError
  | errConflict
  | clusterErr (msg : String)
  | jsonMarshalErr (msg : String)
  | jsonUnmarshalErr (msg : String)
  | newRequestErr (msg : String)
  | transportTimeout (msg : String)
  | transportErr (msg : String)
  | readErr (msg : String)
deriving DecidableEq, Repr

instance instDecEqExcept [DecidableEq ε] [DecidableEq α] : DecidableEq (Except ε α)
  | Except.error a, Except.error b => decidable_of_iff (a = b) (by simp)
  | Except.error _, Except.ok _ => Decidable.isFalse (fun h => Except.noConfusion h)
  | Except.ok _, Except.error _ => Decidable.isFalse (fun h => Except.noConfusion h)
  | Except.ok a, Except.ok b => decidable_of_iff (a = b) (by simp)

/-- The client configuration fields used by `apiCall` and `NewClient`
(`Config` in the Go source; `RequestTimeout` is in seconds). -/
structure Config where
  httpBasicAuthUser : String
  httpBasicPassword : String
  requestTimeout : Nat
deriving DecidableEq, Repr

/-- An outgoing HTTP request as built by `apiCall` lines 238-248:
`http.NewRequest(method, url, bytes.NewReader(jsonBody))`, then optional
`SetBasicAuth`, then the two `Header.Add` calls. -/
structure Request where
  method : String
  url : String
  body : Bytes
  basicAuth : Option (String × String)
  headers : List (String × String)
deriving DecidableEq, Repr

/-- An HTTP response as observed by `apiCall`: the status code, and the
outcome of `ioutil.ReadAll(response.Body)`. -/
structure HTTPResponse where
  statusCode : Int
  readBody : Except GoErr Bytes
deriving DecidableEq, Repr

/-- Externally visible actions of one `apiCall` invocation, in order. -/
inductive Event (α : Type) where
  | gotMember (r : Except GoErr String)
  | marshalled (r : Except GoErr Bytes)
  | builtRequest (req : Request)
  | exchanged (req : Request) (r : Except GoErr HTTPResponse)
  | readBodyEv (r : Except GoErr Bytes)
  | decoded (r : Except GoErr α)
deriving DecidableEq, Repr

/-- Oracles for the external collaborators of one `apiCall` invocation:
`r.cluster.GetMember()`, `json.Marshal`, `http.NewRequest` (which can fail
only locally, on a malformed method or URL), `r.httpClient.Do`, and
`json.Unmarshal` into the caller-supplied result sink of type `α`. -/
structure CallEnv (β α : Type) where
  getMember : Except GoErr String
  marshal : β → Except GoErr Bytes
  newRequestFail : Option GoErr
  doReq : Request → Except GoErr HTTPResponse
  unmarshal : Bytes → Except GoErr α

/-- Lines 243-248: attach basic auth exactly when the configured user is
non-empty, and add the JSON content and accept headers. -/
def buildRequest (cfg : Config) (method url : String) (jsonBody : Bytes) : Request :=
  { method := method
    url := url
    body := jsonBody
    basicAuth :=
      if cfg.httpBasicAuthUser ≠ "" then
        some (cfg.httpBasicAuthUser, cfg.httpBasicPassword)
      else none
    headers := [("Content-Type", "application/json"), ("Accept", "application/json")] }

/-- Lines 229-235: `jsonBody` stays the nil (empty) slice when `body` is
nil, otherwise it is the result of `json.Marshal(body)`. -/
def marshalBody (env : CallEnv β α) (body : Option β) : Except GoErr Bytes :=
  match body with
  | none => Except.ok ""
  | some b => env.marshal b

/-- Lines 238-284 of `apiCall`: build the request, execute it, read the
body, then classify the status code with the if/else chain of lines
263-284.  Returns the outcome and the events this tail itself performs
(`apiCall` prepends the endpoint-fetch and serialization events). -/
def apiCallRest (cfg : Config) (env : CallEnv β α) (method url : String)
    (jsonBody : Bytes) (wantResult : Bool) :
    Except GoErr (Option α) × List (Event α) :=
  match env.newRequestFail with
  | some e => (Except.error e, [])
  | none =>
    let request := buildRequest cfg method url jsonBody
    match env.doReq request with
    | Except.error e =>
      (Except.error e, [Event.builtRequest request, Event.exchanged request (Except.error e)])
    | Except.ok response =>
      match response.readBody with
      | Except.error e =>
        (Except.error e,
          [Event.builtRequest request, Event.exchanged request (Except.ok response),
            Event.readBodyEv (Except.error e)])
      | Except.ok respBody =>
        let ev := [Event.builtRequest request, Event.exchanged request (Except.ok response),
          Event.readBodyEv (Except.ok respBody)]
        if 200 ≤ response.statusCode ∧ response.statusCode ≤ 299 then
          if wantResult then
            match env.unmarshal respBody with
            | Except.error e =>
              (Except.error GoErr.errInvalidResponse, ev ++ [Event.decoded (Except.error e)])
            | Except.ok v => (Except.ok (some v), ev ++ [Event.decoded (Except.ok v)])
          else (Except.ok none, ev)
        else if response.statusCode = 404 then (Except.error GoErr.errDoesNotExist, ev)
        else if response.statusCode = 409 then (Except.error GoErr.errConflict, ev)
        else if 500 ≤ response.statusCode then (Except.error GoErr.errInvalidResponse, ev)
        else (Except.error GoErr.errInvalidResponse, ev)

/-- `apiCall` (lines 220-284).  `wantResult` is whether the Go caller
passed a non-nil `result` sink; on success the sink contents are the
`some` payload.  The second component is the trace of external actions. -/
def apiCall (cfg : Config) (env : CallEnv β α) (method uri : String)
    (body : Option β) (wantResult : Bool) :
    Except GoErr (Option α) × List (Event α) :=
  match env.getMember with
  | Except.error e => (Except.error e, [Event.gotMember (Except.error e)])
  | Except.ok marathon =>
    let url := marathon ++ "/" ++ uri
    match body with
    | none =>
      let rest := apiCallRest cfg env method url "" wantResult
      (rest.1, Event.gotMember (Except.ok marathon) :: rest.2)
    | some b =>
      match env.marshal b with
      | Except.error e =>
        (Except.error e, [Event.gotMember (Except.ok marathon), Event.marshalled (Except.error e)])
      | Except.ok jsonBody =>
        let rest := apiCallRest cfg env method url jsonBody wantResult
        (rest.1,
          Event.gotMember (Except.ok marathon) :: Event.marshalled (Except.ok jsonBody) :: rest.2)

/-- Modelled from the spec: the relative ping path constant
`marathonAPIPing`, declared outside the provided source file; its concrete
value is irrelevant to every property proved here. -/
def marathonAPIPing : String := "ping"

/-- `apiGet` (lines 204-206): dispatch with method GET. -/
def apiGet (cfg : Config) (env : CallEnv β α) (uri : String)
    (post : Option β) (wantResult : Bool) :
    Except GoErr (Option α) × List (Event α) :=
  apiCall cfg env "GET" uri post wantResult

/-- `Ping` (lines 196-201): GET the ping path with nil post and nil result;
return `(false, err)` on error and `(true, nil)` otherwise. -/
def Ping (cfg : Config) (env : CallEnv Unit Unit) :
    (Bool × Option GoErr) × List (Event Unit) :=
  match apiGet cfg env marathonAPIPing none false with
  | (Except.error e, tr) => ((false, some e), tr)
  | (Except.ok _, tr) => ((true, none), tr)

/-- The model of the client state built by `NewClient` (lines 172-188)
that the dispatch claims depend on: the wall-clock timeout installed on
the embedded `http.Client`, in seconds. -/
structure MarathonClientModel where
  config : Config
  httpClientTimeoutSeconds : Nat
deriving DecidableEq, Repr

/-- `NewClient` (lines 179-185): the `http.Client` timeout is set to
`config.RequestTimeout` seconds. -/
def NewClient (config : Config) : MarathonClientModel :=
  { config := config, httpClientTimeoutSeconds := config.requestTimeout }

/-- Whether an event is an HTTP exchange (`httpClient.Do`). -/
def isExchange : Event α → Bool
  | Event.exchanged _ _ => true
  | _ => false

/-- Whether an event is an endpoint fetch from the cluster pool. -/
def isMemberFetch : Event α → Bool
  | Event.gotMember _ => true
  | _ => false

/-- Whether an event is a request-body serialization. -/
def isMarshal : Event α → Bool
  | Event.marshalled _ => true
  | _ => false

/-- Whether an event is a request construction. -/
def isBuild : Event α → Bool
  | Event.builtRequest _ => true
  | _ => false

/-- Whether an event is a decode of the response body into the sink. -/
def isDecode : Event α → Bool
  | Event.decoded _ => true
  | _ => false

/-- The request carried by a build or exchange event, if any. -/
def eventRequest : Event α → Option Request
  | Event.builtRequest req => some req
  | Event.exchanged req _ => some req
  | _ => none

def cfgW : Config :=
  { httpBasicAuthUser := "alice", httpBasicPassword := "secret", requestTimeout := 30 }

def respW (status : Int) (body : Bytes) : HTTPResponse :=
  { statusCode := status, readBody := Except.ok body }

def envW (status : Int) (body : Bytes) : CallEnv Unit Int :=
  { getMember := Except.ok "http://m1:8080"
    marshal := fun _ => Except.ok "payload"
    newRequestFail := none
    doReq := fun _ => Except.ok (respW status body)
    unmarshal := fun s =>
      if s = "7" then Except.ok 7 else Except.error (GoErr.jsonUnmarshalErr "invalid character") }

def envNoMember : CallEnv Unit Int :=
  { getMember := Except.error GoErr.errInvalidEndpoint
    marshal := fun _ => Except.ok "payload"
    newRequestFail := none
    doReq := fun _ => Except.ok (respW 200 "7")
    unmarshal := fun _ => Except.ok 7 }

def envMarshalFail : CallEnv Unit Int :=
  { getMember := Except.ok "http://m1:8080"
    marshal := fun _ => Except.error (GoErr.jsonMarshalErr "json: unsupported type")
    newRequestFail := none
    doReq := fun _ => Except.ok (respW 200 "7")
    unmarshal := fun _ => Except.ok 7 }

def envTimeout : CallEnv Unit Int :=
  { getMember := Except.ok "http://m1:8080"
    marshal := fun _ => Except.ok "payload"
    newRequestFail := none
    doReq := fun _ =>
      Except.error (GoErr.transportTimeout "net/http: Client.Timeout exceeded while awaiting headers")
    unmarshal := fun _ => Except.ok 7 }

theorem apiCall_fst_of_ok (cfg : Config) (env : CallEnv β α) (method uri : String)
    (body : Option β) (wantResult : Bool) (m : String) (jsonBody : Bytes)
    (hGet : env.getMember = Except.ok m)
    (hMar : marshalBody env body = Except.ok jsonBody) :
    (apiCall cfg env method uri body wantResult).1 =
      (apiCallRest cfg env method (m ++ "/" ++ uri) jsonBody wantResult).1 := by
  unfold apiCall
  rw [hGet]
  dsimp only
  cases body with
  | none =>
    simp only [marshalBody, Except.ok.injEq] at hMar
    subst hMar
    rfl
  | some b =>
    dsimp only
    simp only [marshalBody] at hMar
    rw [hMar]

theorem apiCall_countP_of_ok (cfg : Config) (env : CallEnv β α) (method uri : String)
    (body : Option β) (wantResult : Bool) (m : String) (jsonBody : Bytes)
    (p : Event α → Bool)
    (hp1 : ∀ r, p (Event.gotMember r) = false)
    (hp2 : ∀ r, p (Event.marshalled r) = false)
    (hGet : env.getMember = Except.ok m)
    (hMar : marshalBody env body = Except.ok jsonBody) :
    List.countP p (apiCall cfg env method uri body wantResult).2 =
      List.countP p (apiCallRest cfg env method (m ++ "/" ++ uri) jsonBody wantResult).2 := by
  unfold apiCall
  rw [hGet]
  dsimp only
  cases body with
  | none =>
    simp only [marshalBody, Except.ok.injEq] at hMar
    subst hMar
    simp [List.countP_cons, hp1]
  | some b =>
    dsimp only
    simp only [marshalBody] at hMar
    rw [hMar]
    simp [List.countP_cons, hp1, hp2]

theorem apiCallRest_2xx_ok (cfg : Config) (env : CallEnv β α) (method url : String)
    (jsonBody respBody : Bytes) (resp : HTTPResponse) (v : α)
    (hNR : env.newRequestFail = none)
    (hDo : env.doReq (buildRequest cfg method url jsonBody) = Except.ok resp)
    (hRead : resp.readBody = Except.ok respBody)
    (hLo : 200 ≤ resp.statusCode) (hHi : resp.statusCode ≤ 299)
    (hDec : env.unmarshal respBody = Except.ok v) :
    (apiCallRest cfg env method url jsonBody true).1 = Except.ok (some v) := by
  simp [apiCallRest, hNR, hDo, hRead, hLo, hHi, hDec]

theorem apiCallRest_2xx_nosink (cfg : Config) (env : CallEnv β α) (method url : String)
    (jsonBody respBody : Bytes) (resp : HTTPResponse)
    (hNR : env.newRequestFail = none)
    (hDo : env.doReq (buildRequest cfg method url jsonBody) = Except.ok resp)
    (hRead : resp.readBody = Except.ok respBody)
    (hLo : 200 ≤ resp.statusCode) (hHi : resp.statusCode ≤ 299) :
    (apiCallRest cfg env method url jsonBody false).1 = Except.ok none ∧
    List.countP (fun e => isDecode e) (apiCallRest cfg env method url jsonBody false).2 = 0 := by
  simp [apiCallRest, hNR, hDo, hRead, hLo, hHi, isDecode]

theorem apiCallRest_2xx_badDecode (cfg : Config) (env : CallEnv β α) (method url : String)
    (jsonBody respBody : Bytes) (resp : HTTPResponse) (e : GoErr)
    (hNR : env.newRequestFail = none)
    (hDo : env.doReq (buildRequest cfg method url jsonBody) = Except.ok resp)
    (hRead : resp.readBody = Except.ok respBody)
    (hLo : 200 ≤ resp.statusCode) (hHi : resp.statusCode ≤ 299)
    (hDec : env.unmarshal respBody = Except.error e) :
    (apiCallRest cfg env method url jsonBody true).1 = Except.error GoErr.errInvalidResponse := by
  simp [apiCallRest, hNR, hDo, hRead, hLo, hHi, hDec]

theorem apiCallRest_404 (cfg : Config) (env : CallEnv β α) (method url : String)
    (jsonBody respBody : Bytes) (resp : HTTPResponse) (wantResult : Bool)
    (hNR : env.newRequestFail = none)
    (hDo : env.doReq (buildRequest cfg method url jsonBody) = Except.ok resp)
    (hRead : resp.readBody = Except.ok respBody)
    (hs : resp.statusCode = 404) :
    (apiCallRest cfg env method url jsonBody wantResult).1 = Except.error GoErr.errDoesNotExist := by
  simp [apiCallRest, hNR, hDo, hRead, hs]

theorem apiCallRest_409 (cfg : Config) (env : CallEnv β α) (method url : String)
    (jsonBody respBody : Bytes) (resp : HTTPResponse) (wantResult : Bool)
    (hNR : env.newRequestFail = none)
    (hDo : env.doReq (buildRequest cfg method url jsonBody) = Except.ok resp)
    (hRead : resp.readBody = Except.ok respBody)
    (hs : resp.statusCode = 409) :
    (apiCallRest cfg env method url jsonBody wantResult).1 = Except.error GoErr.errConflict := by
  simp [apiCallRest, hNR, hDo, hRead, hs]

theorem apiCallRest_other (cfg : Config) (env : CallEnv β α) (method url : String)
    (jsonBody respBody : Bytes) (resp : HTTPResponse) (wantResult : Bool)
    (hNR : env.newRequestFail = none)
    (hDo : env.doReq (buildRequest cfg method url jsonBody) = Except.ok resp)
    (hRead : resp.readBody = Except.ok respBody)
    (hs : ¬(200 ≤ resp.statusCode ∧ resp.statusCode ≤ 299))
    (h404 : resp.statusCode ≠ 404) (h409 : resp.statusCode ≠ 409) :
    (apiCallRest cfg env method url jsonBody wantResult).1 = Except.error GoErr.errInvalidResponse := by
  simp only [apiCallRest, hNR, hDo, hRead]
  rw [if_neg hs, if_neg h404, if_neg h409]
  split <;> rfl

theorem apiCallRest_total (cfg : Config) (env : CallEnv β α) (method url : String)
    (jsonBody respBody : Bytes) (resp : HTTPResponse) (wantResult : Bool)
    (hNR : env.newRequestFail = none)
    (hDo : env.doReq (buildRequest cfg method url jsonBody) = Except.ok resp)
    (hRead : resp.readBody = Except.ok respBody) :
    (∃ v, (apiCallRest cfg env method url jsonBody wantResult).1 = Except.ok v) ∨
    (apiCallRest cfg env method url jsonBody wantResult).1 = Except.error GoErr.errInvalidResponse ∨
    (apiCallRest cfg env method url jsonBody wantResult).1 = Except.error GoErr.errDoesNotExist ∨
    (apiCallRest cfg env method url jsonBody wantResult).1 = Except.error GoErr.errConflict := by
  simp only [apiCallRest, hNR, hDo, hRead]
  by_cases h1 : 200 ≤ resp.statusCode ∧ resp.statusCode ≤ 299
  · rw [if_pos h1]
    cases wantResult with
    | false => simp
    | true =>
      cases hu : env.unmarshal respBody with
      | error e => simp [hu]
      | ok v => simp [hu]
  · rw [if_neg h1]
    by_cases h2 : resp.statusCode = 404
    · simp [h2]
    · rw [if_neg h2]
      by_cases h3 : resp.statusCode = 409
      · simp [h3]
      · rw [if_neg h3]
        split <;> simp

theorem apiCallRest_trace_shape (cfg : Config) (env : CallEnv β α) (method url : String)
    (jsonBody : Bytes) (wantResult : Bool) :
    List.countP (fun e => isExchange e) (apiCallRest cfg env method url jsonBody wantResult).2 ≤ 1 ∧
    List.countP (fun e => isMemberFetch e) (apiCallRest cfg env method url jsonBody wantResult).2 = 0 ∧
    (∀ ev ∈ (apiCallRest cfg env method url jsonBody wantResult).2, ∀ req : Request,
      eventRequest ev = some req → req = buildRequest cfg method url jsonBody) := by
  unfold apiCallRest
  cases hnr : env.newRequestFail with
  | some e => simp [isExchange, isMemberFetch]
  | none =>
    cases hdo : env.doReq (buildRequest cfg method url jsonBody) with
    | error e => simp [hdo, isExchange, isMemberFetch, eventRequest]
    | ok response =>
      cases hrb : response.readBody with
      | error e => simp [hdo, hrb, isExchange, isMemberFetch, eventRequest]
      | ok respBody =>
        by_cases h1 : 200 ≤ response.statusCode ∧ response.statusCode ≤ 299
        · cases wantResult with
          | false => simp [hdo, hrb, h1, isExchange, isMemberFetch, eventRequest]
          | true =>
            cases hu : env.unmarshal respBody with
            | error e => simp [hdo, hrb, h1, hu, isExchange, isMemberFetch, eventRequest]
            | ok v => simp [hdo, hrb, h1, hu, isExchange, isMemberFetch, eventRequest]
        · by_cases h2 : response.statusCode = 404
          · simp [hdo, hrb, h1, h2, isExchange, isMemberFetch, eventRequest]
          · by_cases h3 : response.statusCode = 409
            · simp [hdo, hrb, h1, h2, h3, isExchange, isMemberFetch, eventRequest]
            · by_cases h5 : 500 ≤ response.statusCode
              · simp [hdo, hrb, h1, h2, h3, h5, isExchange, isMemberFetch, eventRequest]
              · simp [hdo, hrb, h1, h2, h3, h5, isExchange, isMemberFetch, eventRequest]

theorem buildRequest_headers (cfg : Config) (method url : String) (jsonBody : Bytes) :
    (buildRequest cfg method url jsonBody).headers =
      [("Content-Type", "application/json"), ("Accept", "application/json")] := rfl

theorem buildRequest_auth (cfg : Config) (method url : String) (jsonBody : Bytes) :
    (cfg.httpBasicAuthUser ≠ "" →
      (buildRequest cfg method url jsonBody).basicAuth =
        some (cfg.httpBasicAuthUser, cfg.httpBasicPassword)) ∧
    (cfg.httpBasicAuthUser = "" → (buildRequest cfg method url jsonBody).basicAuth = none) := by
  by_cases h : cfg.httpBasicAuthUser = "" <;> simp [buildRequest, h]

/-- Claim C1: when the HTTP exchange yields a status in [200,299] and the
response body decodes into the result type, `apiCall` returns success; with a
non-nil sink the sink holds exactly the decoded content, and with a nil sink
`apiCall` returns success without attempting any decode. -/
theorem apiCall_2xx_success (cfg : Config) (env : CallEnv β α) (method uri : String)
    (body : Option β) (m : String) (jsonBody respBody : Bytes) (resp : HTTPResponse) (v : α)
    (hGet : env.getMember = Except.ok m)
    (hMar : marshalBody env body = Except.ok jsonBody)
    (hNR : env.newRequestFail = none)
    (hDo : env.doReq (buildRequest cfg method (m ++ "/" ++ uri) jsonBody) = Except.ok resp)
    (hRead : resp.readBody = Except.ok respBody)
    (hLo : 200 ≤ resp.statusCode) (hHi : resp.statusCode ≤ 299)
    (hDec : env.unmarshal respBody = Except.ok v) :
    (apiCall cfg env method uri body true).1 = Except.ok (some v) ∧
    (apiCall cfg env method uri body false).1 = Except.ok none ∧
    List.countP (fun e => isDecode e) (apiCall cfg env method uri body false).2 = 0 := by
  refine ⟨?_, ?_, ?_⟩
  · rw [apiCall_fst_of_ok cfg env method uri body true m jsonBody hGet hMar]
    exact apiCallRest_2xx_ok cfg env method (m ++ "/" ++ uri) jsonBody respBody resp v
      hNR hDo hRead hLo hHi hDec
  · rw [apiCall_fst_of_ok cfg env method uri body false m jsonBody hGet hMar]
    exact (apiCallRest_2xx_nosink cfg env method (m ++ "/" ++ uri) jsonBody respBody resp
      hNR hDo hRead hLo hHi).1
  · rw [apiCall_countP_of_ok cfg env method uri body false m jsonBody (fun e => isDecode e)
      (fun r => rfl) (fun r => rfl) hGet hMar]
    exact (apiCallRest_2xx_nosink cfg env method (m ++ "/" ++ uri) jsonBody respBody resp
      hNR hDo hRead hLo hHi).2

theorem apiCall_2xx_success_witness :
    (apiCall cfgW (envW 200 "7") "GET" "v2/apps" none true).1 = Except.ok (some 7) ∧
    (apiCall cfgW (envW 200 "7") "GET" "v2/apps" none false).1 = Except.ok none ∧
    List.countP (fun e => isDecode e) (apiCall cfgW (envW 200 "7") "GET" "v2/apps" none false).2 = 0 :=
  apiCall_2xx_success cfgW (envW 200 "7") "GET" "v2/apps" none "http://m1:8080" "" "7"
    (respW 200 "7") 7 rfl rfl rfl rfl rfl (by decide) (by decide) (by decide)

/-- Claim C2: with a non-nil result sink, a status in [200,299] whose body
fails to decode makes `apiCall` return ErrInvalidResponse, whatever the
specific 2xx status. -/
theorem apiCall_2xx_badDecode (cfg : Config) (env : CallEnv β α) (method uri : String)
    (body : Option β) (m : String) (jsonBody respBody : Bytes) (resp : HTTPResponse) (e : GoErr)
    (hGet : env.getMember = Except.ok m)
    (hMar : marshalBody env body = Except.ok jsonBody)
    (hNR : env.newRequestFail = none)
    (hDo : env.doReq (buildRequest cfg method (m ++ "/" ++ uri) jsonBody) = Except.ok resp)
    (hRead : resp.readBody = Except.ok respBody)
    (hLo : 200 ≤ resp.statusCode) (hHi : resp.statusCode ≤ 299)
    (hDec : env.unmarshal respBody = Except.error e) :
    (apiCall cfg env method uri body true).1 = Except.error GoErr.errInvalidResponse := by
  rw [apiCall_fst_of_ok cfg env method uri body true m jsonBody hGet hMar]
  exact apiCallRest_2xx_badDecode cfg env method (m ++ "/" ++ uri) jsonBody respBody resp e
    hNR hDo hRead hLo hHi hDec

theorem apiCall_2xx_badDecode_witness :
    (apiCall cfgW (envW 226 "oops") "GET" "v2/apps" none true).1 =
      Except.error GoErr.errInvalidResponse :=
  apiCall_2xx_badDecode cfgW (envW 226 "oops") "GET" "v2/apps" none "http://m1:8080" "" "oops"
    (respW 226 "oops") (GoErr.jsonUnmarshalErr "invalid character")
    rfl rfl rfl rfl rfl (by decide) (by decide) (by decide)

/-- Claim C3: for every method and path, status 404 makes `apiCall` return
ErrDoesNotExist and status 409 makes it return ErrConflict. -/
theorem apiCall_404_409 (cfg : Config) (env : CallEnv β α) (method uri : String)
    (body : Option β) (wantResult : Bool) (m : String) (jsonBody respBody : Bytes)
    (resp : HTTPResponse)
    (hGet : env.getMember = Except.ok m)
    (hMar : marshalBody env body = Except.ok jsonBody)
    (hNR : env.newRequestFail = none)
    (hDo : env.doReq (buildRequest cfg method (m ++ "/" ++ uri) jsonBody) = Except.ok resp)
    (hRead : resp.readBody = Except.ok respBody) :
    (resp.statusCode = 404 →
      (apiCall cfg env method uri body wantResult).1 = Except.error GoErr.errDoesNotExist) ∧
    (resp.statusCode = 409 →
      (apiCall cfg env method uri body wantResult).1 = Except.error GoErr.errConflict) := by
  constructor
  · intro hs
    rw [apiCall_fst_of_ok cfg env method uri body wantResult m jsonBody hGet hMar]
    exact apiCallRest_404 cfg env method (m ++ "/" ++ uri) jsonBody respBody resp wantResult
      hNR hDo hRead hs
  · intro hs
    rw [apiCall_fst_of_ok cfg env method uri body wantResult m jsonBody hGet hMar]
    exact apiCallRest_409 cfg env method (m ++ "/" ++ uri) jsonBody respBody resp wantResult
      hNR hDo hRead hs

theorem apiCall_404_409_witness :
    (apiCall cfgW (envW 404 "gone") "DELETE" "v2/apps/foo" none true).1 =
      Except.error GoErr.errDoesNotExist ∧
    (apiCall cfgW (envW 409 "conflict") "POST" "v2/apps" none true).1 =
      Except.error GoErr.errConflict :=
  ⟨(apiCall_404_409 cfgW (envW 404 "gone") "DELETE" "v2/apps/foo" none true "http://m1:8080"
      "" "gone" (respW 404 "gone") rfl rfl rfl rfl rfl).1 rfl,
   (apiCall_404_409 cfgW (envW 409 "conflict") "POST" "v2/apps" none true "http://m1:8080"
      "" "conflict" (respW 409 "conflict") rfl rfl rfl rfl rfl).2 rfl⟩

/-- Claim C4: every status outside [200,299] other than 404 and 409 (hence
every status at least 500) makes `apiCall` return ErrInvalidResponse, and the
classification is total: every status maps to success or to one of
ErrInvalidResponse, ErrDoesNotExist, ErrConflict. -/
theorem apiCall_status_total (cfg : Config) (env : CallEnv β α) (method uri : String)
    (body : Option β) (wantResult : Bool) (m : String) (jsonBody respBody : Bytes)
    (resp : HTTPResponse)
    (hGet : env.getMember = Except.ok m)
    (hMar : marshalBody env body = Except.ok jsonBody)
    (hNR : env.newRequestFail = none)
    (hDo : env.doReq (buildRequest cfg method (m ++ "/" ++ uri) jsonBody) = Except.ok resp)
    (hRead : resp.readBody = Except.ok respBody) :
    (¬(200 ≤ resp.statusCode ∧ resp.statusCode ≤ 299) → resp.statusCode ≠ 404 →
      resp.statusCode ≠ 409 →
      (apiCall cfg env method uri body wantResult).1 = Except.error GoErr.errInvalidResponse) ∧
    ((∃ v, (apiCall cfg env method uri body wantResult).1 = Except.ok v) ∨
      (apiCall cfg env method uri body wantResult).1 = Except.error GoErr.errInvalidResponse ∨
      (apiCall cfg env method uri body wantResult).1 = Except.error GoErr.errDoesNotExist ∨
      (apiCall cfg env method uri body wantResult).1 = Except.error GoErr.errConflict) := by
  rw [apiCall_fst_of_ok cfg env method uri body wantResult m jsonBody hGet hMar]
  constructor
  · intro hs h404 h409
    exact apiCallRest_other cfg env method (m ++ "/" ++ uri) jsonBody respBody resp wantResult
      hNR hDo hRead hs h404 h409
  · exact apiCallRest_total cfg env method (m ++ "/" ++ uri) jsonBody respBody resp wantResult
      hNR hDo hRead

theorem apiCall_status_total_witness :
    (apiCall cfgW (envW 503 "overloaded") "GET" "v2/info" none true).1 =
      Except.error GoErr.errInvalidResponse ∧
    (apiCall cfgW (envW 301 "moved") "GET" "v2/info" none true).1 =
      Except.error GoErr.errInvalidResponse :=
  ⟨(apiCall_status_total cfgW (envW 503 "overloaded") "GET" "v2/info" none true "http://m1:8080"
      "" "overloaded" (respW 503 "overloaded") rfl rfl rfl rfl rfl).1
      (by decide) (by decide) (by decide),
   (apiCall_status_total cfgW (envW 301 "moved") "GET" "v2/info" none true "http://m1:8080"
      "" "moved" (respW 301 "moved") rfl rfl rfl rfl rfl).1
      (by decide) (by decide) (by decide)⟩

/-- Claim C5: when the cluster pool fails to yield an endpoint, `apiCall`
returns that error immediately; the whole trace is the single failed
endpoint fetch, so no body is serialized, no request is built and no
exchange is executed. -/
theorem apiCall_memberFail (cfg : Config) (env : CallEnv β α) (method uri : String)
    (body : Option β) (wantResult : Bool) (e : GoErr)
    (hGet : env.getMember = Except.error e) :
    apiCall cfg env method uri body wantResult =
      (Except.error e, [Event.gotMember (Except.error e)]) ∧
    List.countP (fun ev => isMarshal ev) (apiCall cfg env method uri body wantResult).2 = 0 ∧
    List.countP (fun ev => isBuild ev) (apiCall cfg env method uri body wantResult).2 = 0 ∧
    List.countP (fun ev => isExchange ev) (apiCall cfg env method uri body wantResult).2 = 0 := by
  have h : apiCall cfg env method uri body wantResult =
      (Except.error e, [Event.gotMember (Except.error e)]) := by
    unfold apiCall
    rw [hGet]
  refine ⟨h, ?_, ?_, ?_⟩ <;> rw [h] <;> simp [isMarshal, isBuild, isExchange]

theorem apiCall_memberFail_witness :
    apiCall cfgW envNoMember "GET" "v2/apps" (some ()) true =
      (Except.error GoErr.errInvalidEndpoint,
        [Event.gotMember (Except.error GoErr.errInvalidEndpoint)]) ∧
    List.countP (fun ev => isMarshal ev) (apiCall cfgW envNoMember "GET" "v2/apps" (some ()) true).2 = 0 ∧
    List.countP (fun ev => isBuild ev) (apiCall cfgW envNoMember "GET" "v2/apps" (some ()) true).2 = 0 ∧
    List.countP (fun ev => isExchange ev) (apiCall cfgW envNoMember "GET" "v2/apps" (some ()) true).2 = 0 :=
  apiCall_memberFail cfgW envNoMember "GET" "v2/apps" (some ()) true GoErr.errInvalidEndpoint rfl

/-- Claim C6 is false as stated: a failing `json.Marshal` makes `apiCall`
return the marshal error itself, which is not ErrInvalidArgument. -/
theorem apiCall_marshalFail_counterexample :
    (apiCall cfgW envMarshalFail "POST" "v2/apps" (some ()) true).1 =
      Except.error (GoErr.jsonMarshalErr "json: unsupported type") ∧
    (apiCall cfgW envMarshalFail "POST" "v2/apps" (some ()) true).1 ≠
      Except.error GoErr.errInvalidArgument := by
  constructor
  · rfl
  · decide

/-- Claim C6 (amended): when serialization of a non-nil request body fails,
`apiCall` returns the serialization error verbatim (not ErrInvalidArgument)
and nothing is sent over the network: no request is built and no exchange is
executed. -/
theorem apiCall_marshalFail (cfg : Config) (env : CallEnv β α) (method uri : String)
    (b : β) (wantResult : Bool) (m : String) (e : GoErr)
    (hGet : env.getMember = Except.ok m)
    (hMar : env.marshal b = Except.error e) :
    apiCall cfg env method uri (some b) wantResult =
      (Except.error e,
        [Event.gotMember (Except.ok m), Event.marshalled (Except.error e)]) ∧
    List.countP (fun ev => isBuild ev) (apiCall cfg env method uri (some b) wantResult).2 = 0 ∧
    List.countP (fun ev => isExchange ev) (apiCall cfg env method uri (some b) wantResult).2 = 0 := by
  have h : apiCall cfg env method uri (some b) wantResult =
      (Except.error e, [Event.gotMember (Except.ok m), Event.marshalled (Except.error e)]) := by
    unfold apiCall
    rw [hGet]
    dsimp only
    rw [hMar]
  refine ⟨h, ?_, ?_⟩ <;> rw [h] <;> simp [isBuild, isExchange]

theorem apiCall_marshalFail_witness :
    apiCall cfgW envMarshalFail "POST" "v2/apps" (some ()) true =
      (Except.error (GoErr.jsonMarshalErr "json: unsupported type"),
        [Event.gotMember (Except.ok "http://m1:8080"),
          Event.marshalled (Except.error (GoErr.jsonMarshalErr "json: unsupported type"))]) ∧
    List.countP (fun ev => isBuild ev)
      (apiCall cfgW envMarshalFail "POST" "v2/apps" (some ()) true).2 = 0 ∧
    List.countP (fun ev => isExchange ev)
      (apiCall cfgW envMarshalFail "POST" "v2/apps" (some ()) true).2 = 0 :=
  apiCall_marshalFail cfgW envMarshalFail "POST" "v2/apps" () true "http://m1:8080"
    (GoErr.jsonMarshalErr "json: unsupported type") rfl rfl

/-- Claim C7 is false as stated: a timed-out exchange surfaces the transport
timeout error returned by the HTTP client, which is not ErrTimeoutError. -/
theorem apiCall_timeout_counterexample :
    (apiCall cfgW envTimeout "GET" "v2/apps" none true).1 =
      Except.error (GoErr.transportTimeout "net/http: Client.Timeout exceeded while awaiting headers") ∧
    (apiCall cfgW envTimeout "GET" "v2/apps" none true).1 ≠
      Except.error GoErr.errTimeoutError := by
  constructor
  · rfl
  · decide

/-- Claim C7 (amended): the HTTP client built by `NewClient` carries the
configured RequestTimeout as its wall-clock timeout, and when the exchange
fails (as on expiry of that timeout) `apiCall` returns the transport error
verbatim (not ErrTimeoutError) and the result sink is never decoded into. -/
theorem apiCall_exchangeFail (cfg : Config) (env : CallEnv β α) (method uri : String)
    (body : Option β) (wantResult : Bool) (m : String) (jsonBody : Bytes) (e : GoErr)
    (hGet : env.getMember = Except.ok m)
    (hMar : marshalBody env body = Except.ok jsonBody)
    (hNR : env.newRequestFail = none)
    (hDo : env.doReq (buildRequest cfg method (m ++ "/" ++ uri) jsonBody) = Except.error e) :
    (apiCall cfg env method uri body wantResult).1 = Except.error e ∧
    List.countP (fun ev => isDecode ev) (apiCall cfg env method uri body wantResult).2 = 0 ∧
    (NewClient cfg).httpClientTimeoutSeconds = cfg.requestTimeout := by
  refine ⟨?_, ?_, rfl⟩
  · rw [apiCall_fst_of_ok cfg env method uri body wantResult m jsonBody hGet hMar]
    simp [apiCallRest, hNR, hDo]
  · rw [apiCall_countP_of_ok cfg env method uri body wantResult m jsonBody (fun ev => isDecode ev)
      (fun r => rfl) (fun r => rfl) hGet hMar]
    simp [apiCallRest, hNR, hDo, isDecode]

theorem apiCall_exchangeFail_witness :
    (apiCall cfgW envTimeout "GET" "v2/apps" none true).1 =
      Except.error (GoErr.transportTimeout "net/http: Client.Timeout exceeded while awaiting headers") ∧
    List.countP (fun ev => isDecode ev) (apiCall cfgW envTimeout "GET" "v2/apps" none true).2 = 0 ∧
    (NewClient cfgW).httpClientTimeoutSeconds = cfgW.requestTimeout :=
  apiCall_exchangeFail cfgW envTimeout "GET" "v2/apps" none true "http://m1:8080" ""
    (GoErr.transportTimeout "net/http: Client.Timeout exceeded while awaiting headers")
    rfl rfl rfl rfl

/-- Claim C8: a single `apiCall` invocation never retries: it fetches at
most one endpoint from the cluster pool and performs at most one HTTP
exchange, whatever the outcome. -/
theorem apiCall_single_attempt (cfg : Config) (env : CallEnv β α) (method uri : String)
    (body : Option β) (wantResult : Bool) :
    List.countP (fun e => isMemberFetch e) (apiCall cfg env method uri body wantResult).2 ≤ 1 ∧
    List.countP (fun e => isExchange e) (apiCall cfg env method uri body wantResult).2 ≤ 1 := by
  unfold apiCall
  cases hg : env.getMember with
  | error e => simp [isMemberFetch, isExchange]
  | ok m =>
    cases body with
    | none =>
      have h := apiCallRest_trace_shape cfg env method (m ++ "/" ++ uri) "" wantResult
      constructor
      · simpa [List.countP_cons, isMemberFetch] using h.2.1
      · simpa [List.countP_cons, isExchange] using h.1
    | some b =>
      cases hm : env.marshal b with
      | error e => simp [hm, isMemberFetch, isExchange]
      | ok jb =>
        have h := apiCallRest_trace_shape cfg env method (m ++ "/" ++ uri) jb wantResult
        constructor
        · simpa [hm, List.countP_cons, isMemberFetch] using h.2.1
        · simpa [hm, List.countP_cons, isExchange] using h.1

/-- Claim C9: every request built or exchanged by `apiCall` carries the
Content-Type and Accept JSON headers, and carries a basic-auth credential
pair exactly when the configured user is non-empty. -/
theorem apiCall_request_headers (cfg : Config) (env : CallEnv β α) (method uri : String)
    (body : Option β) (wantResult : Bool) (ev : Event α) (req : Request)
    (hmem : ev ∈ (apiCall cfg env method uri body wantResult).2)
    (hreq : eventRequest ev = some req) :
    req.headers = [("Content-Type", "application/json"), ("Accept", "application/json")] ∧
    (cfg.httpBasicAuthUser ≠ "" →
      req.basicAuth = some (cfg.httpBasicAuthUser, cfg.httpBasicPassword)) ∧
    (cfg.httpBasicAuthUser = "" → req.basicAuth = none) := by
  unfold apiCall at hmem
  cases hg : env.getMember with
  | error e =>
    rw [hg] at hmem
    simp at hmem
    subst hmem
    simp [eventRequest] at hreq
  | ok m =>
    rw [hg] at hmem
    cases body with
    | none =>
      dsimp only at hmem
      simp only [List.mem_cons] at hmem
      rcases hmem with rfl | hmem
      · simp [eventRequest] at hreq
      · have h := (apiCallRest_trace_shape cfg env method (m ++ "/" ++ uri) "" wantResult).2.2
          ev hmem req hreq
        subst h
        exact ⟨buildRequest_headers cfg method (m ++ "/" ++ uri) "",
          (buildRequest_auth cfg method (m ++ "/" ++ uri) "").1,
          (buildRequest_auth cfg method (m ++ "/" ++ uri) "").2⟩
    | some b =>
      dsimp only at hmem
      cases hm : env.marshal b with
      | error e =>
        rw [hm] at hmem
        simp at hmem
        rcases hmem with rfl | rfl <;> simp [eventRequest] at hreq
      | ok jb =>
        rw [hm] at hmem
        dsimp only at hmem
        simp only [List.mem_cons] at hmem
        rcases hmem with rfl | rfl | hmem
        · simp [eventRequest] at hreq
        · simp [eventRequest] at hreq
        · have h := (apiCallRest_trace_shape cfg env method (m ++ "/" ++ uri) jb wantResult).2.2
            ev hmem req hreq
          subst h
          exact ⟨buildRequest_headers cfg method (m ++ "/" ++ uri) jb,
            (buildRequest_auth cfg method (m ++ "/" ++ uri) jb).1,
            (buildRequest_auth cfg method (m ++ "/" ++ uri) jb).2⟩

theorem apiCall_request_headers_witness :
    (buildRequest cfgW "GET" "http://m1:8080/v2/apps" "").headers =
      [("Content-Type", "application/json"), ("Accept", "application/json")] ∧
    (cfgW.httpBasicAuthUser ≠ "" →
      (buildRequest cfgW "GET" "http://m1:8080/v2/apps" "").basicAuth =
        some (cfgW.httpBasicAuthUser, cfgW.httpBasicPassword)) ∧
    (cfgW.httpBasicAuthUser = "" →
      (buildRequest cfgW "GET" "http://m1:8080/v2/apps" "").basicAuth = none) :=
  apiCall_request_headers cfgW (envW 200 "7") "GET" "v2/apps" none true
    (Event.builtRequest (buildRequest cfgW "GET" "http://m1:8080/v2/apps" ""))
    (buildRequest cfgW "GET" "http://m1:8080/v2/apps" "") (by decide) rfl

/-- Claim C10: `Ping` returns (true, nil) exactly when the GET dispatch of
the ping path succeeds, and (false, the classified error) otherwise; true is
never paired with an error and false never with a nil error. -/
theorem Ping_success_iff (cfg : Config) (env : CallEnv Unit Unit) :
    ((Ping cfg env).1 = (true, none) ↔
      ∃ x, (apiCall cfg env "GET" marathonAPIPing none false).1 = Except.ok x) ∧
    (∀ e, (Ping cfg env).1 = (false, some e) ↔
      (apiCall cfg env "GET" marathonAPIPing none false).1 = Except.error e) ∧
    ((Ping cfg env).1.1 = true ↔ (Ping cfg env).1.2 = none) := by
  unfold Ping apiGet
  rcases h : apiCall cfg env "GET" marathonAPIPing none false with ⟨r, tr⟩
  cases r with
  | error e => simp [h]
  | ok x => simp [h]
